import Mathlib

/-!
# hkz2m: a zigbee2mqtt to HomeKit bridge

A shallow embedding of `main.go` and `device.go`.

Conventions of the embedding.

* A Go `string` is a Lean `String`; where the Go code indexes a string by
  bytes (`z.IeeeAddress[2:]`) the string is first turned into its UTF-8 bytes
  (`goBytes`).
* The package-level variables `devices` and `transport` are the fields of
  `World`.  Every call into the MQTT client, the accessory transport and the
  logger is recorded, in program order, in `World.trace`.
* Outcomes decided outside the program (JSON decoding, acknowledgement tokens,
  `hc.NewIPTransport`) are read from an `Env`.
* A goroutine (`go func() ...`) is run to completion at the point where it is
  spawned.
* A run-time panic stops the process: it sets `World.crashed`, and a crashed
  world handles no further message (`runPasses`).
* The Go standard library and the accessory library are not part of the
  sources: `strconv.ParseUint` is transcribed from the standard library, and of
  the accessory library only the storing of a value in a characteristic is
  modelled.
-/

namespace Hkz2m

/-! ## Constants -/

/-- Root topic, `main.go:18`. -/
def z2m : String := "zigbee2mqtt"

/-- Pairing pin, `main.go:20`. -/
def pin : String := "11223399"

/-- Device type of all ZigBee devices that do not route traffic, `device.go:100`. -/
def Z2MDeviceTypeEndDevice : String := "EndDevice"

/-- Device type of the routers, `device.go:102`. -/
def Z2MDeviceTypeRouter : String := "Router"

/-- Device type of the coordinator, `device.go:104`. -/
def Z2MDeviceTypeCoordinator : String := "Coordinator"

/-! ## Data model (`device.go`) -/

/-- The recursive feature description `Z2MFeature`, `device.go:42`.  The Go
field `Type` is spelled `type` here. -/
inductive Z2MFeature where
  | mk (type Name : String) (Access : Int) (Description Property Unit : String)
      (ValueMax ValueMin Endpoint : Int) (Values : List String)
      (Features : List Z2MFeature)

/-- Field `Type` of a feature. -/
def Z2MFeature.type : Z2MFeature → String
  | .mk t _ _ _ _ _ _ _ _ _ _ => t

/-- Field `Name` of a feature. -/
def Z2MFeature.Name : Z2MFeature → String
  | .mk _ n _ _ _ _ _ _ _ _ _ => n

/-- Field `Features` of a feature: the nested features of a composite. -/
def Z2MFeature.Features : Z2MFeature → List Z2MFeature
  | .mk _ _ _ _ _ _ _ _ _ _ fs => fs

/-- The device definition `Z2MDefinition`, `device.go:65`. -/
structure Z2MDefinition where
  Description : String
  Model : String
  Vendor : String
  Exposes : List Z2MFeature

/-- The inventory entry `Z2MDevice`, `device.go:108` (the `Endpoints` map,
which no code reads, is left out). -/
structure Z2MDevice where
  type : String
  FriendlyName : String
  IeeeAddress : String
  InterviewCompleted : Bool
  Interviewing : Bool
  Supported : Bool
  NetworkAddress : Int
  PowerSource : String
  DateCode : String
  SoftwareBuildID : String
  Definition : Z2MDefinition

/-- The argument of `accessory.NewColoredLightbulb`: `accessory.Info` with the
fields that `newDevice` fills in. -/
structure Info where
  Name : String
  Model : String
  Manufacturer : String
  SerialNumber : String
  FirmwareRevision : String
  ID : Nat
deriving DecidableEq, Repr

/-- The values held by the light bulb service of an accessory that the code
writes: `On` and `Brightness` (hue and saturation are floating point and are
never written). -/
structure Lightbulb where
  On : Bool
  Brightness : Int
deriving DecidableEq, Repr

/-- An accessory object: its information and its light bulb service. -/
structure Accessory where
  Info : Info
  Lightbulb : Lightbulb
deriving DecidableEq, Repr

/-- The active device `Device`, `device.go:124`. -/
structure Device where
  Accessory : Accessory
  Z2MDevice : Z2MDevice
  Subscribed : Bool

/-- The decoded state message `LightState`, `device.go:131` (the floating point
colour pair is left out). -/
structure LightState where
  State : String
  Brightness : Int
  ColorTemp : Int
  LinkQuality : Int
deriving DecidableEq, Repr

/-! ## The outside world -/

/-- One call out of the program, as recorded in the trace. -/
inductive Event where
  /-- A line written through `log.Info` or `log.Debug`, named by its format. -/
  | log (format : String)
  /-- The call `mqttClient.Publish(topic, 0, false, payload)`. -/
  | publish (topic payload : String)
  /-- The call `mqttClient.Subscribe(topic, 0, callback)`. -/
  | subscribe (topic : String)
  /-- The call `mqttClient.Unsubscribe(topics...)`. -/
  | unsubscribe (topics : List String)
  /-- The statement `<-transport.Stop()`: stop requested and its completion
  awaited, on the transport with the given handle. -/
  | transportStop (h : Nat)
  /-- The call `hc.NewIPTransport` with the given accessories; the result is
  the handle of the new transport, or `none` when the call returned an error. -/
  | newIPTransport (accessories : List Accessory) (result : Option Nat)
  /-- The call `transport.Start()` on the current value of the variable
  `transport` (`none` is the nil transport). -/
  | transportStart (h : Option Nat)
deriving DecidableEq, Repr

/-- What the program reads from its surroundings. -/
structure Env where
  /-- The call `json.Unmarshal(payload, &zigbeeDevices)` into a
  `[]*Z2MDevice`: `none` for an error, and a JSON `null` element decodes to a
  nil pointer, `none` in the list. -/
  unmarshalDevices : ByteArray → Option (List (Option Z2MDevice))
  /-- The call `json.Unmarshal(payload, &state)` into a `LightState`. -/
  unmarshalLightState : ByteArray → Option LightState
  /-- Whether the acknowledgement of a subscribe to this topic has no error. -/
  subscribeOk : String → Bool
  /-- Whether the acknowledgement of this unsubscribe has no error. -/
  unsubscribeOk : List String → Bool
  /-- Whether the acknowledgement of this publish has no error. -/
  publishOk : String → String → Bool
  /-- Whether `hc.NewIPTransport` succeeds for these accessories. -/
  newIPTransportOk : List Accessory → Bool
  /-- The values of a light bulb service fresh from the accessory library. -/
  freshLightbulb : Lightbulb

/-- The reasons for a run-time panic. -/
inductive Panic where
  /-- Slice bounds out of range. -/
  | sliceBounds
  /-- Nil pointer dereference. -/
  | nilDereference
deriving DecidableEq, Repr

/-- The package-level variables of `main.go:23` that the inventory handler
uses, the transports allocated so far, the trace, and the crash flag. -/
structure World where
  devices : List Device
  transport : Option Nat
  nextTransport : Nat
  trace : List Event
  crashed : Bool

/-- The state at process start: no device, no transport. -/
def World.initial : World :=
  { devices := [], transport := none, nextTransport := 0, trace := [], crashed := false }

/-! ## Strings and `strconv.ParseUint` -/

/-- The bytes of a Go string (its UTF-8 encoding), as numbers below 256. -/
def goBytes (s : String) : List Nat :=
  (s.data.flatMap String.utf8EncodeChar).map UInt8.toNat

/-- The errors of `strconv`. -/
inductive NumError where
  | ErrSyntax
  | ErrRange
  | ErrBase
  | ErrBitSize
deriving DecidableEq, Repr

/-- The constant `maxUint64 = 1<<64 - 1` of `strconv`. -/
def maxUint64 : Nat := 2 ^ 64 - 1

/-- The helper `lower(c) = c | ('x' - 'X')` of `strconv`. -/
def lower (c : Nat) : Nat := c ||| (0x78 - 0x58)

/-- The digit that `strconv.ParseUint` reads from one byte: `c - '0'` for a
decimal digit, `lower(c) - 'a' + 10` for a letter, nothing otherwise. -/
def digitOf (c : Nat) : Option Nat :=
  if 0x30 ≤ c ∧ c ≤ 0x39 then some (c - 0x30)
  else if 0x61 ≤ lower c ∧ lower c ≤ 0x7a then some (lower c - 0x61 + 10)
  else none

/-- The loop of `strconv.ParseUint` over the bytes of its argument, with the
running value `n` (a `uint64`). -/
def parseUintLoop (base cutoff maxVal : Nat) : List Nat → Nat → Nat × Option NumError
  | [], n => (n, none)
  | c :: cs, n =>
    match digitOf c with
    | none => (0, some .ErrSyntax)
    | some d =>
      if d ≥ base then (0, some .ErrSyntax)
      else if n ≥ cutoff then (maxVal, some .ErrRange)
      else
        let scaled := (n * base) % 2 ^ 64
        let n1 := (scaled + d) % 2 ^ 64
        if n1 < scaled ∨ n1 > maxVal then (maxVal, some .ErrRange)
        else parseUintLoop base cutoff maxVal cs n1

/-- The function `strconv.ParseUint(s, base, bitSize)` of the Go standard
library, transcribed from `strconv/atoi.go`, for an explicit base from 2 to 36 and a bit size from 1 to 64 (base 0,
which reads the base from the string, and bit size 0 are not used by the
program and are answered with an error here).  The result is the value and the
error, if any. -/
def ParseUint (s : List Nat) (base bitSize : Nat) : Nat × Option NumError :=
  if s = [] then (0, some .ErrSyntax)
  else if ¬ (2 ≤ base ∧ base ≤ 36) then (0, some .ErrBase)
  else if bitSize = 0 ∨ bitSize > 64 then (0, some .ErrBitSize)
  else parseUintLoop base (maxUint64 / base + 1) (2 ^ bitSize - 1) s 0

/-! ## Device adapter (`device.go`) -/

/-- The function `findSpecificFeatureType`, `device.go:224`: the first
feature of the list whose own feature list is not empty. -/
def findSpecificFeatureType : List Z2MFeature → Option Z2MFeature
  | [] => none
  | f :: rest => if f.Features.length > 0 then some f else findSpecificFeatureType rest

/-- The constructor `accessory.NewColoredLightbulb` of the accessory library:
an accessory carrying the given information, its light bulb service at the
values the library starts with. -/
def NewColoredLightbulb (env : Env) (info : Info) : Accessory :=
  { Info := info, Lightbulb := env.freshLightbulb }

/-- Modelled from the spec: the method `SetValue` of the on/off characteristic
belongs to the accessory library, which is not among the sources; the pushed
value becomes the local on/off value of the accessory. -/
def Accessory.setOn (a : Accessory) (value : Bool) : Accessory :=
  { a with Lightbulb := { a.Lightbulb with On := value } }

/-- Modelled from the spec: the method `SetValue` of the brightness
characteristic belongs to the accessory library, which is not among the
sources; the pushed value becomes the local brightness value of the accessory. -/
def Accessory.setBrightness (a : Accessory) (value : Int) : Accessory :=
  { a with Lightbulb := { a.Lightbulb with Brightness := value } }

/-- The function `newDevice`, `device.go:142`.  The result is the list of
calls made, and either a panic or the device (`none` for Go's `nil`). -/
def newDevice (env : Env) (z : Z2MDevice) : List Event × Except Panic (Option Device) :=
  match findSpecificFeatureType z.Definition.Exposes with
  | none => ([.log "skipping %v, %v, %v"], .ok none)
  | some f =>
    if (goBytes z.IeeeAddress).length < 2 then ([], .error .sliceBounds)
    else
      let r := ParseUint ((goBytes z.IeeeAddress).drop 2) 16 64
      let parseLog := if r.2.isSome then [Event.log "cannot parse %v as unt16: %v"] else []
      if f.type = "light" then
        let a := NewColoredLightbulb env
          { Name := z.FriendlyName, Model := z.Definition.Model,
            Manufacturer := z.Definition.Vendor, SerialNumber := z.IeeeAddress,
            FirmwareRevision := z.SoftwareBuildID, ID := r.1 }
        let topic := z2m ++ "/" ++ z.FriendlyName
        let acked := env.subscribeOk topic
        (parseLog ++ [.log "light feature: %#v", .subscribe topic]
            ++ (if acked then [] else [.log "subscribe %v: %v"]),
          .ok (some { Accessory := a, Z2MDevice := z, Subscribed := acked }))
      else (parseLog ++ [.log "Unknown feature: %#v"], .ok none)

/-- The callback registered with `a.Lightbulb.On.OnValueRemoteUpdate`,
`device.go:167`, of device `d` (the argument `on` is spelled `value`), as a
transformer of the accessory it closes over together with the calls it makes. -/
def onRemoteUpdate (env : Env) (d : Device) (value : Bool) (a : Accessory) :
    Accessory × List Event :=
  let payload := if value then "ON" else "OFF"
  let topic := z2m ++ "/" ++ d.Z2MDevice.FriendlyName ++ "/" ++ "set/state"
  (a, [.log "%v on: %v", .publish topic payload]
        ++ (if env.publishOk topic payload then [] else [.log "publish state %v: %v"]))

/-- The callback registered with `a.Lightbulb.Brightness.OnValueRemoteUpdate`,
`device.go:181`; `shown` is `fmt.Sprintf("%v", brightness)`. -/
def brightnessRemoteUpdate (env : Env) (d : Device) (shown : String) (a : Accessory) :
    Accessory × List Event :=
  let topic := z2m ++ "/" ++ d.Z2MDevice.FriendlyName ++ "/" ++ "set/brightness"
  (a, [.log "%v brightness: %v", .publish topic shown]
        ++ (if env.publishOk topic shown then [] else [.log "publish state %v: %v"]))

/-- The callback of the subscription to the state topic of a device,
`device.go:198`, as a transformer of the accessory it closes over together
with the calls it makes. -/
def stateReceive (env : Env) (payload : ByteArray) (a : Accessory) :
    Accessory × List Event :=
  match env.unmarshalLightState payload with
  | none => (a, [.log "Unmarshal %v: %v"])
  | some state =>
    (((a.setOn (decide (state.State = "ON"))).setBrightness state.Brightness),
      [.log "%v got: %#v"])

/-! ## Inventory handler (`main.go`) -/

/-- The loop of `main.go:64` over the decoded inventory, with the slice
`ellegibleDevices` and the calls made so far. -/
def eligibleLoop (env : Env) :
    List (Option Z2MDevice) → List Device → List Event → List Event × Except Panic (List Device)
  | [], ellegibleDevices, evs => (evs, .ok ellegibleDevices)
  | none :: _, _, evs => (evs, .error .nilDereference)
  | some z :: rest, ellegibleDevices, evs =>
    if z.type = Z2MDeviceTypeCoordinator then eligibleLoop env rest ellegibleDevices evs
    else if !z.Interviewing && z.InterviewCompleted && z.Supported then
      match newDevice env z with
      | (evs1, .error p) => (evs ++ evs1, .error p)
      | (evs1, .ok (some d)) => eligibleLoop env rest (ellegibleDevices ++ [d]) (evs ++ evs1)
      | (evs1, .ok none) =>
        eligibleLoop env rest ellegibleDevices (evs ++ evs1 ++ [.log "skipping unsupported %v (%v, %v, %v)"])
    else eligibleLoop env rest ellegibleDevices evs

/-- The statement of `main.go:80`: stop the current transport, if any, and
wait for it. -/
def stopTransport (transport : Option Nat) : List Event :=
  match transport with
  | some h => [.transportStop h]
  | none => []

/-- The loop of `main.go:84` over the previous devices. -/
def unsubscribeLoop (env : Env) : List Device → List Event
  | [] => []
  | d :: rest =>
    let topics := if d.Subscribed then [z2m ++ "/" ++ d.Z2MDevice.FriendlyName] else []
    (if topics.length > 0 then
        [Event.unsubscribe topics]
          ++ (if env.unsubscribeOk topics then [] else [.log "Unsubscribe: %v"])
      else [])
      ++ unsubscribeLoop env rest

/-- The handler of topic `zigbee2mqtt/bridge/devices`, `main.go:55`: one
reconciliation pass. -/
def receiveDevices (env : Env) (payload : ByteArray) (w : World) : World :=
  match env.unmarshalDevices payload with
  | none => { w with trace := w.trace ++ [.log "Unmarshal %v"] }
  | some zigbeeDevices =>
    match eligibleLoop env zigbeeDevices [] [] with
    | (evs, .error _) => { w with trace := w.trace ++ evs, crashed := true }
    | (evs, .ok ellegibleDevices) =>
      let accessories := ellegibleDevices.map (fun d => d.Accessory)
      let created := env.newIPTransportOk accessories
      let transport := if created then some w.nextTransport else none
      { devices := ellegibleDevices
        transport := transport
        nextTransport := if created then w.nextTransport + 1 else w.nextTransport
        trace := w.trace ++ evs ++ stopTransport w.transport ++ unsubscribeLoop env w.devices
          ++ [.newIPTransport accessories transport]
          ++ (if created then [] else [.log "NewIPTransport: %s"])
          ++ [.transportStart transport]
        crashed := transport.isNone }

/-- A sequence of reconciliation passes, one after another, each with its own
surroundings and payload; a crashed process handles no further message. -/
def runPasses : List (Env × ByteArray) → World → World
  | [], w => w
  | (env, payload) :: rest, w =>
    if w.crashed then w else runPasses rest (receiveDevices env payload w)

/-! ## Notions used in the statements -/

/-- Whether an event is a publish. -/
def Event.isPublish : Event → Bool
  | .publish _ _ => true
  | _ => false

/-- Whether an event is a line of the log. -/
def Event.isLog : Event → Bool
  | .log _ => true
  | _ => false

/-- Whether an event is an unsubscribe. -/
def Event.isUnsubscribe : Event → Bool
  | .unsubscribe _ => true
  | _ => false

/-- The effect of one event on the handles of the transports that exist and
have not been stopped: a successful `hc.NewIPTransport` and a start add the
handle, an awaited stop removes it. -/
def runningStep (live : List Nat) : Event → List Nat
  | .newIPTransport _ (some h) => live ++ [h]
  | .transportStart (some h) => if h ∈ live then live else live ++ [h]
  | .transportStop h => live.filter (fun k => k ≠ h)
  | _ => live

/-- The handles of the transports running after a trace. -/
def running (trace : List Event) : List Nat :=
  trace.foldl runningStep []

/-- The descriptor is not the coordinator, is not interviewing, is
interview-completed and is supported. -/
def passesFlags (z : Z2MDevice) : Bool :=
  z.type ≠ Z2MDeviceTypeCoordinator && !z.Interviewing && z.InterviewCompleted && z.Supported

/-- The exposed capability list of the descriptor contains at least one
feature with a non-empty nested feature list. -/
def hasComposite (z : Z2MDevice) : Bool :=
  z.Definition.Exposes.any (fun f => decide (0 < f.Features.length))

/-- The first feature of the exposed capability list with a non-empty nested
feature list exists and has type `light`. -/
def firstCompositeIsLight (z : Z2MDevice) : Bool :=
  match z.Definition.Exposes.find? (fun f => decide (0 < f.Features.length)) with
  | some f => decide (f.type = "light")
  | none => false

/-- The value of one byte as a hexadecimal digit, if it is one. -/
def hexDigitValue (c : Nat) : Option Nat :=
  if 48 ≤ c ∧ c ≤ 57 then some (c - 48)
  else if 97 ≤ c ∧ c ≤ 102 then some (c - 87)
  else if 65 ≤ c ∧ c ≤ 70 then some (c - 55)
  else none

/-- Whether a byte is a hexadecimal digit. -/
def isHexDigit (c : Nat) : Bool := (hexDigitValue c).isSome

/-- The number written by hexadecimal digits, continuing from `n`. -/
def hexFold (n : Nat) (s : List Nat) : Nat :=
  s.foldl (fun m c => 16 * m + (hexDigitValue c).getD 0) n

/-- The number written by hexadecimal digits. -/
def hexValue (s : List Nat) : Nat := hexFold 0 s

/-- The numeric identifier read from the bytes that follow the first two of an
identity: `2 ^ 64 - 1` when the leading hexadecimal digits already exceed 64
bits, the value of the digits when the bytes are one or more hexadecimal digits
only, and 0 otherwise. -/
def identifierOf (s : List Nat) : Nat :=
  if 2 ^ 64 ≤ hexValue (s.takeWhile isHexDigit) then 2 ^ 64 - 1
  else if s ≠ [] ∧ s.all isHexDigit = true then hexValue s
  else 0

/-! ## Concrete inputs -/

/-- A feature of the given type with the given nested features. -/
def feature (type : String) (Features : List Z2MFeature) : Z2MFeature :=
  .mk type "" 0 "" "" "" 0 0 0 [] Features

/-- A router that is interviewed and supported, exposing a flat link quality
feature and one composite feature of the given type. -/
def router (name ieee kind : String) : Z2MDevice :=
  { type := Z2MDeviceTypeRouter, FriendlyName := name, IeeeAddress := ieee,
    InterviewCompleted := true, Interviewing := false, Supported := true,
    NetworkAddress := 0, PowerSource := "", DateCode := "", SoftwareBuildID := "",
    Definition :=
      { Description := "", Model := "", Vendor := "",
        Exposes := [feature "numeric" [], feature kind [feature "binary" []]] } }

/-- Surroundings in which every payload decodes to the given inventory, every
acknowledgement is free of error, and `hc.NewIPTransport` succeeds or not as
given. -/
def surroundings (inventory : Option (List (Option Z2MDevice))) (created : Bool) : Env :=
  { unmarshalDevices := fun _ => inventory
    unmarshalLightState := fun _ => none
    subscribeOk := fun _ => true
    unsubscribeOk := fun _ => true
    publishOk := fun _ _ => true
    newIPTransportOk := fun _ => created
    freshLightbulb := { On := false, Brightness := 0 } }

/-- The device that `newDevice` builds for a light. -/
def lightDevice (env : Env) (z : Z2MDevice) : Device :=
  { Accessory := NewColoredLightbulb env
      { Name := z.FriendlyName, Model := z.Definition.Model,
        Manufacturer := z.Definition.Vendor, SerialNumber := z.IeeeAddress,
        FirmwareRevision := z.SoftwareBuildID,
        ID := (ParseUint ((goBytes z.IeeeAddress).drop 2) 16 64).1 }
    Z2MDevice := z
    Subscribed := env.subscribeOk (z2m ++ "/" ++ z.FriendlyName) }

/-- Whether an event is no call to the accessory transport. -/
def Event.isQuiet : Event → Bool
  | .log _ => true
  | .publish _ _ => true
  | .subscribe _ => true
  | .unsubscribe _ => true
  | _ => false

/-- Whether an event may happen while the transports `live` are running: a
transport is created only when none is running, and the only transport running
when one is started is that one. -/
def Event.allowedAt (live : List Nat) : Event → Prop
  | .newIPTransport _ (some _) => live = []
  | .transportStart (some h) => live = [h]
  | _ => True

/-- Every event of the trace is allowed where it happens and leaves at most one
transport running, starting with the transports `live`. -/
def sequenced (live : List Nat) : List Event → Prop
  | [] => True
  | e :: es =>
    e.allowedAt live ∧ (runningStep live e).length ≤ 1 ∧ sequenced (runningStep live e) es

/-- A world with one subscribed device of the given name. -/
def worldWith (name : String) : World :=
  { World.initial with
    devices := [lightDevice (surroundings none true) (router name "0x00158d0001a2b3c4" "light")] }

/-- Surroundings in which every state payload decodes as given. -/
def surroundingsWithState (state : Option LightState) : Env :=
  { surroundings none true with unmarshalLightState := fun _ => state }

/-- Two passes, one after another, over an inventory of one light. -/
def twoPasses : List (Env × ByteArray) :=
  [(surroundings (some [some (router "lamp" "0x00158d0001a2b3c4" "light")]) true, ByteArray.empty),
    (surroundings (some [some (router "lamp" "0x00158d0001a2b3c4" "light")]) true, ByteArray.empty)]

/-! # Theorems -/

/-! ## `strconv.ParseUint` in base 16 -/

theorem le_lower (c : Nat) : c ≤ lower c := by
  unfold lower
  exact Nat.le_of_testBit (by intro i h; simp [h])

/-- The digit read by the loop, kept when it is below the base 16, is the
hexadecimal digit value of the byte. -/
theorem digitOf_hex (c : Nat) :
    (digitOf c).bind (fun d => if d < 16 then some d else none) = hexDigitValue c := by
  by_cases hc : c < 128
  · revert c
    decide
  · have h1 := le_lower c
    have h2 : ¬ (0x30 ≤ c ∧ c ≤ 0x39) := by omega
    have h3 : ¬ (0x61 ≤ lower c ∧ lower c ≤ 0x7a) := by omega
    have h4 : hexDigitValue c = none := by
      unfold hexDigitValue
      rw [if_neg (by omega), if_neg (by omega), if_neg (by omega)]
    rw [h4]
    unfold digitOf
    rw [if_neg h2, if_neg h3]
    rfl

theorem hexFold_ge (s : List Nat) (n : Nat) : n ≤ hexFold n s := by
  induction s generalizing n with
  | nil => exact Nat.le_refl n
  | cons c cs ih =>
    have h := ih (16 * n + (hexDigitValue c).getD 0)
    have h2 : hexFold n (c :: cs) = hexFold (16 * n + (hexDigitValue c).getD 0) cs := rfl
    rw [h2]
    omega

theorem hexDigitValue_lt (c d : Nat) (h : hexDigitValue c = some d) : d < 16 := by
  unfold hexDigitValue at h
  split at h
  · injection h with h; omega
  · split at h
    · injection h with h; omega
    · split at h
      · injection h with h; omega
      · cases h

/-- The loop of `ParseUint` in base 16 and 64 bits, in closed form. -/
theorem parseUintLoop_hex (s : List Nat) (n : Nat) (hn : n < 2 ^ 64) :
    (parseUintLoop 16 (maxUint64 / 16 + 1) (2 ^ 64 - 1) s n).1 =
      if 2 ^ 64 ≤ hexFold n (s.takeWhile isHexDigit) then 2 ^ 64 - 1
      else if s.all isHexDigit = true then hexFold n s
      else 0 := by
  induction s generalizing n with
  | nil =>
    have h1 : hexFold n [] = n := rfl
    simp only [parseUintLoop, List.takeWhile_nil, List.all_nil, h1, if_true]
    rw [if_neg (by omega)]
  | cons c cs ih =>
    have hd := digitOf_hex c
    cases hv : hexDigitValue c with
    | none =>
      have hx : isHexDigit c = false := by simp [isHexDigit, hv]
      have htw : (c :: cs).takeWhile isHexDigit = [] := by simp [List.takeWhile, hx]
      have hall : (c :: cs).all isHexDigit = false := by simp [hx]
      have h1 : hexFold n [] = n := rfl
      rw [htw, hall, h1, if_neg (by omega)]
      rw [hv] at hd
      unfold parseUintLoop
      cases hdig : digitOf c with
      | none => simp
      | some d =>
        rw [hdig] at hd
        have : ¬ d < 16 := by
          intro hlt
          simp [hlt] at hd
        simp only []
        rw [if_pos (by omega)]
        simp
    | some d =>
      have hlt := hexDigitValue_lt c d hv
      have hx : isHexDigit c = true := by simp [isHexDigit, hv]
      have htw : (c :: cs).takeWhile isHexDigit = c :: cs.takeWhile isHexDigit := by
        simp [List.takeWhile, hx]
      have hall : (c :: cs).all isHexDigit = cs.all isHexDigit := by simp [hx]
      have hf1 : ∀ l, hexFold n (c :: l) = hexFold (16 * n + d) l := by
        intro l
        simp [hexFold, hv]
      rw [hv] at hd
      have hdig : digitOf c = some d := by
        cases hdc : digitOf c with
        | none => rw [hdc] at hd; cases hd
        | some e =>
          rw [hdc] at hd
          simp only [Option.bind] at hd
          by_cases he : e < 16
          · rw [if_pos he] at hd
            rw [hd]
          · rw [if_neg he] at hd
            cases hd
      rw [htw, hall, hf1, hf1]
      unfold parseUintLoop
      simp only [hdig]
      rw [if_neg (by omega)]
      have hcut : maxUint64 / 16 + 1 = 2 ^ 60 := by decide
      rw [hcut]
      by_cases hge : n ≥ 2 ^ 60
      · rw [if_pos hge]
        have := hexFold_ge (cs.takeWhile isHexDigit) (16 * n + d)
        rw [if_pos (by omega)]
      · rw [if_neg hge]
        have e1 : n * 16 % 2 ^ 64 = 16 * n := by
          rw [Nat.mod_eq_of_lt (by omega)]; omega
        have e2 : (16 * n + d) % 2 ^ 64 = 16 * n + d := Nat.mod_eq_of_lt (by omega)
        simp only [e1, e2]
        rw [if_neg (by omega)]
        exact ih (16 * n + d) (by omega)

/-- The value returned by `strconv.ParseUint(s, 16, 64)`, in closed form. -/
theorem ParseUint_hex (s : List Nat) : (ParseUint s 16 64).1 = identifierOf s := by
  unfold ParseUint identifierOf hexValue
  by_cases hs : s = []
  · subst hs
    have h1 : hexFold 0 [] = 0 := rfl
    simp [h1]
  · rw [if_neg hs, if_neg (by omega), if_neg (by omega)]
    rw [parseUintLoop_hex s 0 (by omega)]
    simp [hs]

/-! ## Classification -/

theorem utf8EncodeChar_length_pos (c : Char) : 1 ≤ (String.utf8EncodeChar c).length := by
  unfold String.utf8EncodeChar
  simp only []
  split
  · simp
  · split
    · simp
    · split <;> simp

theorem flatMap_utf8_length_ge (cs : List Char) :
    cs.length ≤ (cs.flatMap String.utf8EncodeChar).length := by
  induction cs with
  | nil => simp
  | cons c cs ih =>
    have h := utf8EncodeChar_length_pos c
    simp only [List.flatMap_cons, List.length_append, List.length_cons]
    omega

theorem goBytes_length_ge (s : String) : s.length ≤ (goBytes s).length := by
  unfold goBytes
  rw [List.length_map]
  exact flatMap_utf8_length_ge s.data

theorem findSpecificFeatureType_eq_find (fs : List Z2MFeature) :
    findSpecificFeatureType fs = fs.find? (fun f => decide (0 < f.Features.length)) := by
  induction fs with
  | nil => rfl
  | cons f rest ih =>
    unfold findSpecificFeatureType
    by_cases h : f.Features.length > 0
    · rw [if_pos h]
      simp [List.find?, h]
    · rw [if_neg h, ih]
      simp [List.find?, h]

theorem findSpecificFeatureType_some (fs : List Z2MFeature) (f : Z2MFeature) :
    findSpecificFeatureType fs = some f ↔
      ∃ before after, fs = before ++ f :: after ∧ (∀ g ∈ before, g.Features = []) ∧
        f.Features ≠ [] := by
  induction fs with
  | nil => simp [findSpecificFeatureType]
  | cons g rest ih =>
    unfold findSpecificFeatureType
    by_cases h : g.Features.length > 0
    · rw [if_pos h]
      have hg : g.Features ≠ [] := by
        intro h0
        rw [h0] at h
        simp at h
      constructor
      · intro e
        injection e with e
        subst e
        exact ⟨[], rest, rfl, by simp, hg⟩
      · rintro ⟨before, after, e, hb, hf⟩
        cases before with
        | nil =>
          simp only [List.nil_append] at e
          injection e with e1 e2
          rw [e1]
        | cons b bs =>
          simp only [List.cons_append] at e
          injection e with e1 e2
          have := hb b (by simp)
          rw [← e1] at this
          exact absurd this hg
    · rw [if_neg h, ih]
      have hg : g.Features = [] := by
        cases hgf : g.Features with
        | nil => rfl
        | cons a l =>
          rw [hgf] at h
          simp at h
      constructor
      · rintro ⟨before, after, e, hb, hf⟩
        refine ⟨g :: before, after, by rw [e]; rfl, ?_, hf⟩
        intro x hx
        rcases List.mem_cons.mp hx with hx | hx
        · rw [hx]; exact hg
        · exact hb x hx
      · rintro ⟨before, after, e, hb, hf⟩
        cases before with
        | nil =>
          simp only [List.nil_append] at e
          injection e with e1 e2
          rw [← e1] at hf
          exact absurd hg hf
        | cons b bs =>
          simp only [List.cons_append] at e
          injection e with e1 e2
          exact ⟨bs, after, e2, fun x hx => hb x (by simp [hx]), hf⟩

theorem findSpecificFeatureType_none (fs : List Z2MFeature) :
    findSpecificFeatureType fs = none ↔ ∀ g ∈ fs, g.Features = [] := by
  induction fs with
  | nil => simp [findSpecificFeatureType]
  | cons g rest ih =>
    unfold findSpecificFeatureType
    by_cases h : g.Features.length > 0
    · rw [if_pos h]
      constructor
      · intro e; cases e
      · intro hall
        have := hall g (by simp)
        rw [this] at h
        simp at h
    · rw [if_neg h, ih]
      have hg : g.Features = [] := by
        cases hgf : g.Features with
        | nil => rfl
        | cons a l =>
          rw [hgf] at h
          simp at h
      constructor
      · intro hall x hx
        rcases List.mem_cons.mp hx with hx | hx
        · rw [hx]; exact hg
        · exact hall x hx
      · intro hall x hx
        exact hall x (by simp [hx])

/-! ## `newDevice` -/

theorem newDevice_none (env : Env) (z : Z2MDevice)
    (hf : findSpecificFeatureType z.Definition.Exposes = none) :
    newDevice env z = ([.log "skipping %v, %v, %v"], .ok none) := by
  unfold newDevice
  rw [hf]

theorem newDevice_short (env : Env) (z : Z2MDevice) (f : Z2MFeature)
    (hf : findSpecificFeatureType z.Definition.Exposes = some f)
    (hb : (goBytes z.IeeeAddress).length < 2) :
    newDevice env z = ([], .error .sliceBounds) := by
  unfold newDevice
  rw [hf]
  simp only []
  rw [if_pos hb]

theorem newDevice_light (env : Env) (z : Z2MDevice) (f : Z2MFeature)
    (hf : findSpecificFeatureType z.Definition.Exposes = some f)
    (hb : 2 ≤ (goBytes z.IeeeAddress).length) (ht : f.type = "light") :
    (newDevice env z).2 = .ok (some (lightDevice env z)) := by
  unfold newDevice
  rw [hf]
  simp only []
  rw [if_neg (by omega), if_pos ht]
  rfl

theorem newDevice_other (env : Env) (z : Z2MDevice) (f : Z2MFeature)
    (hf : findSpecificFeatureType z.Definition.Exposes = some f)
    (hb : 2 ≤ (goBytes z.IeeeAddress).length) (ht : f.type ≠ "light") :
    (newDevice env z).2 = .ok none := by
  unfold newDevice
  rw [hf]
  simp only []
  rw [if_neg (by omega), if_neg ht]

theorem newDevice_some_descriptor (env : Env) (z : Z2MDevice) (d : Device)
    (h : (newDevice env z).2 = .ok (some d)) : d = lightDevice env z := by
  unfold newDevice at h
  split at h
  · cases h
  · simp only [] at h
    split at h
    · cases h
    · split at h
      · injection h with h
        injection h with h
        rw [← h]
        rfl
      · cases h

/-- The events of `newDevice` are lines of the log and subscribes. -/
theorem newDevice_events (env : Env) (z : Z2MDevice) :
    ∀ e ∈ (newDevice env z).1, e.isLog = true ∨ ∃ t, e = .subscribe t := by
  intro e he
  unfold newDevice at he
  split at he
  · simp only [List.mem_singleton] at he
    rw [he]; exact Or.inl rfl
  · simp only [] at he
    split at he
    · cases he
    · split at he
      · simp only [List.mem_append, List.mem_cons, List.mem_singleton] at he
        rcases he with (he | he | he | he) | he
        · split at he
          · simp only [List.mem_singleton] at he
            rw [he]; exact Or.inl rfl
          · cases he
        · rw [he]; exact Or.inl rfl
        · rw [he]; exact Or.inr ⟨_, rfl⟩
        · cases he
        · split at he
          · cases he
          · simp only [List.mem_singleton] at he
            rw [he]; exact Or.inl rfl
      · simp only [List.mem_append, List.mem_singleton] at he
        rcases he with he | he
        · split at he
          · simp only [List.mem_singleton] at he
            rw [he]; exact Or.inl rfl
          · cases he
        · rw [he]; exact Or.inl rfl

theorem firstCompositeIsLight_iff (z : Z2MDevice) :
    firstCompositeIsLight z = true ↔
      ∃ f, findSpecificFeatureType z.Definition.Exposes = some f ∧ f.type = "light" := by
  unfold firstCompositeIsLight
  rw [findSpecificFeatureType_eq_find]
  cases List.find? (fun f => decide (0 < f.Features.length)) z.Definition.Exposes with
  | none => simp
  | some f => simp

theorem hasComposite_iff (z : Z2MDevice) :
    hasComposite z = true ↔ ∃ f, findSpecificFeatureType z.Definition.Exposes = some f := by
  unfold hasComposite
  constructor
  · intro h
    cases hf : findSpecificFeatureType z.Definition.Exposes with
    | some f => exact ⟨f, rfl⟩
    | none =>
      rw [findSpecificFeatureType_none] at hf
      rw [List.any_eq_true] at h
      obtain ⟨g, hg, hgf⟩ := h
      rw [hf g hg] at hgf
      simp at hgf
  · rintro ⟨f, hf⟩
    rw [findSpecificFeatureType_some] at hf
    obtain ⟨before, after, e, _, hne⟩ := hf
    rw [List.any_eq_true]
    refine ⟨f, by rw [e]; simp, ?_⟩
    cases hff : f.Features with
    | nil => exact absurd hff hne
    | cons a l => simp

/-- C8: for every device descriptor whose identity string has at least two
characters, `findSpecificFeatureType` returns the first top-level feature, in
list order, whose nested feature list is not empty, and returns nothing exactly
when no top-level feature has nested features; `newDevice` returns a device
exactly when that feature exists and has type `light`, and returns nil
otherwise. -/
theorem classification_first_composite (env : Env) (z : Z2MDevice)
    (hid : 2 ≤ z.IeeeAddress.length) :
    (∀ f, findSpecificFeatureType z.Definition.Exposes = some f ↔
        ∃ before after, z.Definition.Exposes = before ++ f :: after ∧
          (∀ g ∈ before, g.Features = []) ∧ f.Features ≠ []) ∧
    (findSpecificFeatureType z.Definition.Exposes = none ↔
        ∀ g ∈ z.Definition.Exposes, g.Features = []) ∧
    ((∃ d, (newDevice env z).2 = .ok (some d)) ↔
        ∃ f, findSpecificFeatureType z.Definition.Exposes = some f ∧ f.type = "light") ∧
    ((newDevice env z).2 = .ok none ↔
        ¬ ∃ f, findSpecificFeatureType z.Definition.Exposes = some f ∧ f.type = "light") := by
  have hb : 2 ≤ (goBytes z.IeeeAddress).length := Nat.le_trans hid (goBytes_length_ge _)
  refine ⟨fun f => findSpecificFeatureType_some _ f, findSpecificFeatureType_none _, ?_, ?_⟩
  · constructor
    · rintro ⟨d, hd⟩
      cases hf : findSpecificFeatureType z.Definition.Exposes with
      | none =>
        rw [newDevice_none env z hf] at hd
        cases hd
      | some f =>
        by_cases ht : f.type = "light"
        · exact ⟨f, rfl, ht⟩
        · rw [newDevice_other env z f hf hb ht] at hd
          cases hd
    · rintro ⟨f, hf, ht⟩
      exact ⟨_, newDevice_light env z f hf hb ht⟩
  · constructor
    · rintro hn ⟨f, hf, ht⟩
      rw [newDevice_light env z f hf hb ht] at hn
      cases hn
    · intro hn
      cases hf : findSpecificFeatureType z.Definition.Exposes with
      | none => rw [newDevice_none env z hf]
      | some f =>
        by_cases ht : f.type = "light"
        · exact absurd ⟨f, hf, ht⟩ hn
        · exact newDevice_other env z f hf hb ht

/-- C8 at a router named lamp that exposes a light. -/
theorem classification_first_composite_witness :
    2 ≤ (router "lamp" "0x00158d0001a2b3c4" "light").IeeeAddress.length ∧
    ∃ d, (newDevice (surroundings none true) (router "lamp" "0x00158d0001a2b3c4" "light")).2
      = .ok (some d) :=
  ⟨by decide,
    (classification_first_composite (surroundings none true)
      (router "lamp" "0x00158d0001a2b3c4" "light") (by decide)).2.2.1.mpr
      ⟨feature "light" [feature "binary" []], rfl, rfl⟩⟩

/-- C10, as amended: for every device descriptor whose first composite
capability has type `light` and whose identity has at least two bytes,
`newDevice` returns a device for that descriptor, and its numeric accessory
identifier is `2 ^ 64 - 1` when the hexadecimal digits leading the bytes after
the first two exceed 64 bits, the value of those bytes when they are one or
more hexadecimal digits only, and 0 otherwise. -/
theorem newDevice_identifier (env : Env) (z : Z2MDevice) (f : Z2MFeature)
    (hf : findSpecificFeatureType z.Definition.Exposes = some f) (ht : f.type = "light")
    (hb : 2 ≤ (goBytes z.IeeeAddress).length) :
    ∃ d, (newDevice env z).2 = .ok (some d) ∧ d.Z2MDevice = z ∧
      d.Accessory.Info.ID = identifierOf ((goBytes z.IeeeAddress).drop 2) :=
  ⟨lightDevice env z, newDevice_light env z f hf hb ht, rfl, ParseUint_hex _⟩

/-- C10, as amended, at an identity whose digits do not parse. -/
theorem newDevice_identifier_witness :
    findSpecificFeatureType (router "lamp" "0xzz" "light").Definition.Exposes
      = some (feature "light" [feature "binary" []]) ∧
    (feature "light" [feature "binary" []]).type = "light" ∧
    2 ≤ (goBytes (router "lamp" "0xzz" "light").IeeeAddress).length ∧
    ∃ d, (newDevice (surroundings none true) (router "lamp" "0xzz" "light")).2 = .ok (some d) ∧
      d.Z2MDevice = router "lamp" "0xzz" "light" ∧
      d.Accessory.Info.ID = 0 :=
  ⟨rfl, rfl, by decide,
    (newDevice_identifier (surroundings none true) (router "lamp" "0xzz" "light")
      (feature "light" [feature "binary" []]) rfl rfl (by decide)).imp
      (fun _ h => ⟨h.1, h.2.1, h.2.2.trans (by decide)⟩)⟩

/-- C10 fails as stated: for the empty identity and for a one-character
identity `newDevice` panics on the slice `z.IeeeAddress[2:]`, and for
seventeen hexadecimal digits after the first two bytes, which do not parse as
64 bits, the identifier is `2 ^ 64 - 1`, not 0. -/
theorem newDevice_identifier_counterexample :
    (newDevice (surroundings none true) (router "lamp" "" "light")).2 = .error .sliceBounds ∧
    (newDevice (surroundings none true) (router "lamp" "0" "light")).2 = .error .sliceBounds ∧
    (ParseUint ((goBytes "0x10000000000000000").drop 2) 16 64).2 = some .ErrRange ∧
    (∃ d, (newDevice (surroundings none true) (router "lamp" "0x10000000000000000" "light")).2
        = .ok (some d) ∧ d.Accessory.Info.ID = 2 ^ 64 - 1) :=
  ⟨rfl, rfl, by decide, lightDevice (surroundings none true) (router "lamp" "0x10000000000000000" "light"),
    rfl, by decide⟩

/-! ## The loop over the inventory -/

/-- On an inventory without nil entries in which every candidate for
classification has an identity of at least two bytes, the loop does not panic
and appends the lights among the admitted descriptors, in order. -/
theorem eligibleLoop_ok (env : Env) (zs : List Z2MDevice)
    (hid : ∀ z ∈ zs, passesFlags z = true → hasComposite z = true →
      2 ≤ (goBytes z.IeeeAddress).length) (acc : List Device) (evs : List Event) :
    (eligibleLoop env (zs.map some) acc evs).2 =
      .ok (acc ++ (zs.filter (fun z => passesFlags z && hasComposite z &&
        firstCompositeIsLight z)).map (lightDevice env)) := by
  induction zs generalizing acc evs with
  | nil => simp [eligibleLoop]
  | cons z rest ih =>
    have ihr := ih (fun x hx => hid x (List.mem_cons_of_mem _ hx))
    have hz := hid z (List.mem_cons_self _ _)
    simp only [List.map_cons]
    unfold eligibleLoop
    by_cases hc : z.type = Z2MDeviceTypeCoordinator
    · rw [if_pos hc, ihr]
      have : passesFlags z = false := by simp [passesFlags, hc]
      simp [List.filter, this]
    · rw [if_neg hc]
      by_cases hfl : (!z.Interviewing && z.InterviewCompleted && z.Supported) = true
      · rw [if_pos hfl]
        have hp : passesFlags z = true := by
          simp only [Bool.and_eq_true, Bool.not_eq_true'] at hfl
          simp [passesFlags, hc, hfl]
        cases hf : findSpecificFeatureType z.Definition.Exposes with
        | none =>
          have hh : hasComposite z = false := by
            cases h : hasComposite z with
            | false => rfl
            | true =>
              obtain ⟨f, hf2⟩ := (hasComposite_iff z).mp h
              rw [hf] at hf2
              cases hf2
          rw [newDevice_none env z hf]
          simp only []
          rw [ihr]
          simp [List.filter, hh]
        | some f =>
          have hh : hasComposite z = true := (hasComposite_iff z).mpr ⟨f, hf⟩
          have hb := hz hp hh
          by_cases ht : f.type = "light"
          · have hl : firstCompositeIsLight z = true :=
              (firstCompositeIsLight_iff z).mpr ⟨f, hf, ht⟩
            have hnd := newDevice_light env z f hf hb ht
            cases hres : newDevice env z with
            | mk evs1 r =>
              rw [hres] at hnd
              simp only [] at hnd
              subst hnd
              simp only []
              rw [ihr]
              simp [List.filter, hp, hh, hl]
          · have hl : firstCompositeIsLight z = false := by
              cases h : firstCompositeIsLight z with
              | false => rfl
              | true =>
                obtain ⟨g, hg, hgt⟩ := (firstCompositeIsLight_iff z).mp h
                rw [hf] at hg
                injection hg with hg
                rw [hg] at ht
                exact absurd hgt ht
            have hnd := newDevice_other env z f hf hb ht
            cases hres : newDevice env z with
            | mk evs1 r =>
              rw [hres] at hnd
              simp only [] at hnd
              subst hnd
              simp only []
              rw [ihr]
              simp [List.filter, hl]
      · rw [if_neg hfl, ihr]
        have hp : passesFlags z = false := by
          simp only [Bool.not_eq_true] at hfl
          simp only [passesFlags]
          rw [Bool.and_assoc, Bool.and_assoc] at *
          rw [hfl]
          simp
        simp [List.filter, hp]

/-- Whenever the loop ends without a panic, the devices it appended are devices
of descriptors of the inventory, in order. -/
theorem eligibleLoop_sublist (env : Env) (zs : List (Option Z2MDevice)) (acc : List Device)
    (evs evs1 : List Event) (r : List Device)
    (h : eligibleLoop env zs acc evs = (evs1, .ok r)) :
    ∃ ds, r = acc ++ ds ∧ (ds.map (fun d => d.Z2MDevice)).Sublist (zs.filterMap id) := by
  induction zs generalizing acc evs with
  | nil =>
    simp only [eligibleLoop] at h
    injection h with h1 h2
    injection h2 with h2
    exact ⟨[], by simp [h2], by simp⟩
  | cons o rest ih =>
    cases o with
    | none =>
      simp only [eligibleLoop] at h
      injection h with h1 h2
      cases h2
    | some z =>
      unfold eligibleLoop at h
      split at h
      · obtain ⟨ds, e, hs⟩ := ih acc evs h
        exact ⟨ds, e, by simpa using hs.cons z⟩
      · split at h
        · split at h
          · injection h with h1 h2
            cases h2
          · rename_i evs2 d hnd
            obtain ⟨ds, e, hs⟩ := ih _ _ h
            have hd : d = lightDevice env z :=
              newDevice_some_descriptor env z d (by rw [hnd])
            refine ⟨d :: ds, by rw [e]; simp, ?_⟩
            have hz : d.Z2MDevice = z := by rw [hd]; rfl
            simpa [hz] using hs.cons₂ z
          · obtain ⟨ds, e, hs⟩ := ih _ _ h
            exact ⟨ds, e, by simpa using hs.cons z⟩
        · obtain ⟨ds, e, hs⟩ := ih acc evs h
          exact ⟨ds, e, by simpa using hs.cons z⟩

/-- The loop only adds lines of the log and subscribes to the calls made. -/
theorem eligibleLoop_events (env : Env) (zs : List (Option Z2MDevice)) (acc : List Device)
    (evs : List Event) :
    ∃ more, (eligibleLoop env zs acc evs).1 = evs ++ more ∧
      ∀ e ∈ more, e.isLog = true ∨ ∃ t, e = .subscribe t := by
  induction zs generalizing acc evs with
  | nil => exact ⟨[], by simp [eligibleLoop], by simp⟩
  | cons o rest ih =>
    cases o with
    | none => exact ⟨[], by simp [eligibleLoop], by simp⟩
    | some z =>
      unfold eligibleLoop
      split
      · exact ih acc evs
      · split
        · have hne := newDevice_events env z
          split
          · rename_i evs2 p hnd
            rw [hnd] at hne
            exact ⟨evs2, rfl, hne⟩
          · rename_i evs2 d hnd
            rw [hnd] at hne
            obtain ⟨more, e, hm⟩ := ih (acc ++ [d]) (evs ++ evs2)
            refine ⟨evs2 ++ more, by rw [e]; simp, ?_⟩
            intro x hx
            rcases List.mem_append.mp hx with hx | hx
            · exact hne x hx
            · exact hm x hx
          · rename_i evs2 hnd
            rw [hnd] at hne
            obtain ⟨more, e, hm⟩ :=
              ih acc (evs ++ evs2 ++ [.log "skipping unsupported %v (%v, %v, %v)"])
            refine ⟨evs2 ++ [.log "skipping unsupported %v (%v, %v, %v)"] ++ more,
              by rw [e]; simp, ?_⟩
            intro x hx
            simp only [List.mem_append, List.mem_singleton] at hx
            rcases hx with (hx | hx) | hx
            · exact hne x hx
            · rw [hx]; exact Or.inl rfl
            · exact hm x hx
        · exact ih acc evs

/-! ## The inventory handler -/

theorem receiveDevices_undecoded (env : Env) (payload : ByteArray) (w : World)
    (hdec : env.unmarshalDevices payload = none) :
    receiveDevices env payload w = { w with trace := w.trace ++ [.log "Unmarshal %v"] } := by
  unfold receiveDevices
  rw [hdec]

theorem receiveDevices_panic (env : Env) (payload : ByteArray) (w : World)
    (zs : List (Option Z2MDevice)) (evs : List Event) (p : Panic)
    (hdec : env.unmarshalDevices payload = some zs)
    (hloop : eligibleLoop env zs [] [] = (evs, .error p)) :
    receiveDevices env payload w = { w with trace := w.trace ++ evs, crashed := true } := by
  unfold receiveDevices
  rw [hdec]
  simp only []
  rw [hloop]

theorem receiveDevices_ok (env : Env) (payload : ByteArray) (w : World)
    (zs : List (Option Z2MDevice)) (evs : List Event) (ds : List Device)
    (hdec : env.unmarshalDevices payload = some zs)
    (hloop : eligibleLoop env zs [] [] = (evs, .ok ds)) :
    receiveDevices env payload w =
      { devices := ds
        transport :=
          if env.newIPTransportOk (ds.map (fun d => d.Accessory)) then some w.nextTransport
          else none
        nextTransport :=
          if env.newIPTransportOk (ds.map (fun d => d.Accessory)) then w.nextTransport + 1
          else w.nextTransport
        trace := w.trace ++ evs ++ stopTransport w.transport ++ unsubscribeLoop env w.devices
          ++ [.newIPTransport (ds.map (fun d => d.Accessory))
                (if env.newIPTransportOk (ds.map (fun d => d.Accessory)) then some w.nextTransport
                  else none)]
          ++ (if env.newIPTransportOk (ds.map (fun d => d.Accessory)) then []
                else [.log "NewIPTransport: %s"])
          ++ [.transportStart
                (if env.newIPTransportOk (ds.map (fun d => d.Accessory)) then some w.nextTransport
                  else none)]
        crashed :=
          (if env.newIPTransportOk (ds.map (fun d => d.Accessory)) then some w.nextTransport
            else none).isNone } := by
  unfold receiveDevices
  rw [hdec]
  simp only []
  rw [hloop]

/-- C3: when the inventory payload fails to decode, the handler leaves the
device list, the transport handle and every other variable as they were, and
the only call it makes is one line of the log: no transport stop, no
unsubscribe, no subscribe, no transport creation and no transport start. -/
theorem decode_failure_changes_nothing (env : Env) (payload : ByteArray) (w : World)
    (hdec : env.unmarshalDevices payload = none) :
    (receiveDevices env payload w).devices = w.devices ∧
    (receiveDevices env payload w).transport = w.transport ∧
    (receiveDevices env payload w).nextTransport = w.nextTransport ∧
    (receiveDevices env payload w).crashed = w.crashed ∧
    (receiveDevices env payload w).trace = w.trace ++ [.log "Unmarshal %v"] := by
  rw [receiveDevices_undecoded env payload w hdec]
  exact ⟨rfl, rfl, rfl, rfl, rfl⟩

/-- C3 at a world with one subscribed device and a payload that does not
decode. -/
theorem decode_failure_changes_nothing_witness :
    (surroundings none true).unmarshalDevices ByteArray.empty = none ∧
    (receiveDevices (surroundings none true) ByteArray.empty (worldWith "lamp")).devices
      = (worldWith "lamp").devices ∧
    (receiveDevices (surroundings none true) ByteArray.empty (worldWith "lamp")).trace
      = (worldWith "lamp").trace ++ [.log "Unmarshal %v"] :=
  ⟨rfl,
    (decode_failure_changes_nothing (surroundings none true) ByteArray.empty
      (worldWith "lamp") rfl).1,
    (decode_failure_changes_nothing (surroundings none true) ByteArray.empty
      (worldWith "lamp") rfl).2.2.2.2⟩

/-- C1, as amended: when the inventory decodes to a sequence of descriptors
(no nil entry) and every descriptor that passes the flags and exposes a
composite feature has an identity of at least two bytes, the device list left
by the handler holds, in order, exactly the descriptors that are not the
coordinator, are not interviewing, are interview-completed, are supported,
expose a feature with a non-empty nested feature list, and whose first such
feature has type `light`. -/
theorem device_set_is_the_lights (env : Env) (payload : ByteArray) (w : World)
    (zs : List Z2MDevice)
    (hdec : env.unmarshalDevices payload = some (zs.map some))
    (hid : ∀ z ∈ zs, passesFlags z = true → hasComposite z = true →
      2 ≤ (goBytes z.IeeeAddress).length) :
    (receiveDevices env payload w).devices.map (fun d => d.Z2MDevice) =
      zs.filter (fun z => passesFlags z && hasComposite z && firstCompositeIsLight z) := by
  have h := eligibleLoop_ok env zs hid [] []
  cases hres : eligibleLoop env (zs.map some) [] [] with
  | mk evs r =>
    rw [hres] at h
    simp only [] at h
    subst h
    rw [receiveDevices_ok env payload w _ _ _ hdec hres]
    simp only [List.nil_append, List.map_map]
    exact List.map_id _

/-- C1, as amended, at an inventory of a light, a switch and the coordinator. -/
theorem device_set_is_the_lights_witness :
    (surroundings (some ([router "lamp" "0x00158d0001a2b3c4" "light",
        router "plug" "0x00158d0001a2b3c5" "switch",
        { router "stick" "0x00124b0001a2b3c6" "light" with type := Z2MDeviceTypeCoordinator }].map
          some)) true).unmarshalDevices ByteArray.empty
      = some ([router "lamp" "0x00158d0001a2b3c4" "light",
        router "plug" "0x00158d0001a2b3c5" "switch",
        { router "stick" "0x00124b0001a2b3c6" "light" with type := Z2MDeviceTypeCoordinator }].map
          some) ∧
    ((receiveDevices (surroundings (some ([router "lamp" "0x00158d0001a2b3c4" "light",
        router "plug" "0x00158d0001a2b3c5" "switch",
        { router "stick" "0x00124b0001a2b3c6" "light" with type := Z2MDeviceTypeCoordinator }].map
          some)) true) ByteArray.empty World.initial).devices.map (fun d => d.Z2MDevice)).map
        (fun z => z.FriendlyName) = ["lamp"] :=
  ⟨rfl, by
    rw [device_set_is_the_lights _ ByteArray.empty World.initial
      [router "lamp" "0x00158d0001a2b3c4" "light",
        router "plug" "0x00158d0001a2b3c5" "switch",
        { router "stick" "0x00124b0001a2b3c6" "light" with type := Z2MDeviceTypeCoordinator }]
      rfl (by
        intro z hz _ _
        simp only [List.mem_cons, List.mem_singleton, List.not_mem_nil, or_false] at hz
        rcases hz with hz | hz | hz <;> subst hz <;> decide)]
    decide⟩

/-- C1 fails as stated: a router that is not interviewing, is
interview-completed, is supported and exposes a composite feature of type
`switch` meets every condition of the claim, yet the handler leaves an empty
device list. -/
theorem device_set_counterexample :
    passesFlags (router "plug" "0x00158d0001a2b3c5" "switch") = true ∧
    hasComposite (router "plug" "0x00158d0001a2b3c5" "switch") = true ∧
    (receiveDevices (surroundings (some [some (router "plug" "0x00158d0001a2b3c5" "switch")]) true)
      ByteArray.empty World.initial).devices.length = 0 ∧
    (receiveDevices (surroundings (some [some (router "plug" "0x00158d0001a2b3c5" "switch")]) true)
      ByteArray.empty World.initial).crashed = false := by
  decide

/-- C6, the code at the failing input: on an empty inventory for which
`hc.NewIPTransport` returns an error, the handler logs the error and then
calls `Start` on the nil transport, which stops the process. -/
theorem create_failure_starts_nil_transport :
    (receiveDevices (surroundings (some []) false) ByteArray.empty World.initial).trace =
      [.newIPTransport [] none, .log "NewIPTransport: %s", .transportStart none] ∧
    (receiveDevices (surroundings (some []) false) ByteArray.empty World.initial).transport = none ∧
    (receiveDevices (surroundings (some []) false) ByteArray.empty World.initial).crashed = true := by
  decide

/-- In every pass that reaches `hc.NewIPTransport` and in which that call
fails, `Start` is called on the nil transport and the process stops. -/
theorem create_failure_crashes (env : Env) (payload : ByteArray) (w : World)
    (zs : List (Option Z2MDevice)) (evs : List Event) (ds : List Device)
    (hdec : env.unmarshalDevices payload = some zs)
    (hloop : eligibleLoop env zs [] [] = (evs, .ok ds))
    (hfail : env.newIPTransportOk (ds.map (fun d => d.Accessory)) = false) :
    (receiveDevices env payload w).crashed = true ∧
    (receiveDevices env payload w).transport = none ∧
    Event.transportStart none ∈ (receiveDevices env payload w).trace := by
  rw [receiveDevices_ok env payload w zs evs ds hdec hloop]
  simp [hfail]

/-- C9, the code at the failing input: with one subscribed device active, an
inventory that lists a light without identity makes `newDevice` panic on the
slice `z.IeeeAddress[2:]`; the pass issues no unsubscribe and does not replace
the device list. -/
theorem short_identity_stops_the_pass :
    ((worldWith "old").devices.map (fun d => d.Subscribed)) = [true] ∧
    (receiveDevices (surroundings (some [some (router "lamp" "" "light")]) true)
      ByteArray.empty (worldWith "old")).crashed = true ∧
    (receiveDevices (surroundings (some [some (router "lamp" "" "light")]) true)
      ByteArray.empty (worldWith "old")).trace = [] ∧
    ((receiveDevices (surroundings (some [some (router "lamp" "" "light")]) true)
      ByteArray.empty (worldWith "old")).devices.map (fun d => d.Z2MDevice.FriendlyName))
        = ["old"] := by
  decide

theorem unsubscribeLoop_unsubscribes (env : Env) (ds : List Device) :
    (unsubscribeLoop env ds).filter Event.isUnsubscribe =
      (ds.filter (fun d => d.Subscribed)).map
        (fun d => Event.unsubscribe ["zigbee2mqtt/" ++ d.Z2MDevice.FriendlyName]) := by
  induction ds with
  | nil => rfl
  | cons d rest ih =>
    have hz : z2m ++ "/" = "zigbee2mqtt/" := by decide
    unfold unsubscribeLoop
    simp only [List.filter_append, ih]
    cases hs : d.Subscribed with
    | false => simp [List.filter, hs]
    | true =>
      cases hu : env.unsubscribeOk [z2m ++ "/" ++ d.Z2MDevice.FriendlyName] <;>
        simp [List.filter, hs, hu, Event.isUnsubscribe, hz]

theorem filter_isUnsubscribe_of_log_or_subscribe (evs : List Event)
    (h : ∀ e ∈ evs, e.isLog = true ∨ ∃ t, e = .subscribe t) :
    evs.filter Event.isUnsubscribe = [] := by
  rw [List.filter_eq_nil_iff]
  intro e he
  rcases h e he with h1 | ⟨t, h1⟩
  · cases e <;> simp_all [Event.isLog, Event.isUnsubscribe]
  · rw [h1]; simp [Event.isUnsubscribe]

/-- In every pass in which the loop over the inventory ends without a panic,
the unsubscribes issued are those of the previously active devices whose
`Subscribed` flag is set, once each in list order, whatever their
acknowledgements, and the device list is replaced by the newly built one. -/
theorem receiveDevices_unsubscribes (env : Env) (payload : ByteArray) (w : World)
    (zs : List (Option Z2MDevice)) (evs : List Event) (ds : List Device)
    (hdec : env.unmarshalDevices payload = some zs)
    (hloop : eligibleLoop env zs [] [] = (evs, .ok ds)) :
    (∃ calls, (receiveDevices env payload w).trace = w.trace ++ calls ∧
      calls.filter Event.isUnsubscribe =
        (w.devices.filter (fun d => d.Subscribed)).map
          (fun d => Event.unsubscribe ["zigbee2mqtt/" ++ d.Z2MDevice.FriendlyName])) ∧
    (receiveDevices env payload w).devices = ds := by
  rw [receiveDevices_ok env payload w zs evs ds hdec hloop]
  refine ⟨⟨_, by simp only [List.append_assoc]; rfl, ?_⟩, rfl⟩
  obtain ⟨more, hm, hq⟩ := eligibleLoop_events env zs [] []
  rw [hloop] at hm
  simp only [List.nil_append] at hm
  subst hm
  have h1 := filter_isUnsubscribe_of_log_or_subscribe _ hq
  have h2 : (stopTransport w.transport).filter Event.isUnsubscribe = [] := by
    cases w.transport <;> rfl
  simp only [List.filter_append, h1, h2, unsubscribeLoop_unsubscribes, List.nil_append]
  cases env.newIPTransportOk (ds.map (fun d => d.Accessory)) <;>
    simp [List.filter, Event.isUnsubscribe]

/-! ## Device identities -/

theorem receiveDevices_nodup (env : Env) (payload : ByteArray) (w : World)
    (hw : (w.devices.map (fun d => d.Z2MDevice.IeeeAddress)).Nodup)
    (h : ∀ zs, env.unmarshalDevices payload = some zs →
      ((zs.filterMap id).map (fun z => z.IeeeAddress)).Nodup) :
    ((receiveDevices env payload w).devices.map (fun d => d.Z2MDevice.IeeeAddress)).Nodup := by
  cases hdec : env.unmarshalDevices payload with
  | none =>
    rw [receiveDevices_undecoded env payload w hdec]
    exact hw
  | some zs =>
    cases hloop : eligibleLoop env zs [] [] with
    | mk evs r =>
      cases r with
      | error p =>
        rw [receiveDevices_panic env payload w zs evs p hdec hloop]
        exact hw
      | ok ds =>
        rw [receiveDevices_ok env payload w zs evs ds hdec hloop]
        obtain ⟨ds1, e, hs⟩ := eligibleLoop_sublist env zs [] [] evs ds hloop
        simp only [List.nil_append] at e
        subst e
        have hs2 := hs.map (fun z : Z2MDevice => z.IeeeAddress)
        rw [List.map_map] at hs2
        exact (h zs hdec).sublist hs2

theorem runPasses_nodup (inputs : List (Env × ByteArray)) (w : World)
    (hw : (w.devices.map (fun d => d.Z2MDevice.IeeeAddress)).Nodup)
    (h : ∀ ep ∈ inputs, ∀ zs, ep.1.unmarshalDevices ep.2 = some zs →
      ((zs.filterMap id).map (fun z => z.IeeeAddress)).Nodup) :
    ((runPasses inputs w).devices.map (fun d => d.Z2MDevice.IeeeAddress)).Nodup := by
  induction inputs generalizing w with
  | nil => exact hw
  | cons ep rest ih =>
    obtain ⟨env, payload⟩ := ep
    unfold runPasses
    split
    · exact hw
    · exact ih _ (receiveDevices_nodup env payload w hw (h (env, payload) (List.mem_cons_self _ _)))
        (fun ep hep => h ep (List.mem_cons_of_mem _ hep))

/-- C7, as amended: after every sequence of reconciliation passes from the
initial state in which each inventory that decodes lists every IEEE address at
most once, no two entries of the active device list have the same IEEE
address. -/
theorem one_device_per_identity (inputs : List (Env × ByteArray))
    (h : ∀ ep ∈ inputs, ∀ zs, ep.1.unmarshalDevices ep.2 = some zs →
      ((zs.filterMap id).map (fun z => z.IeeeAddress)).Nodup) :
    ((runPasses inputs World.initial).devices.map (fun d => d.Z2MDevice.IeeeAddress)).Nodup :=
  runPasses_nodup inputs World.initial List.nodup_nil h

/-- C7, as amended, at two passes over an inventory of two lights. -/
theorem one_device_per_identity_witness :
    ((runPasses
      [(surroundings (some [some (router "lamp" "0x00158d0001a2b3c4" "light"),
          some (router "spot" "0x00158d0001a2b3c5" "light")]) true, ByteArray.empty),
        (surroundings (some [some (router "lamp" "0x00158d0001a2b3c4" "light"),
          some (router "spot" "0x00158d0001a2b3c5" "light")]) true, ByteArray.empty)]
      World.initial).devices.map (fun d => d.Z2MDevice.IeeeAddress)).Nodup :=
  one_device_per_identity _ (by
    intro ep hep zs hzs
    simp only [List.mem_cons, List.mem_singleton, List.not_mem_nil, or_false, or_self] at hep
    subst hep
    simp only [surroundings] at hzs
    injection hzs with hzs
    subst hzs
    decide)

/-- C7 fails as stated: an inventory that lists the same IEEE address twice
leaves two devices with that address in the active device list. -/
theorem one_device_per_identity_counterexample :
    (receiveDevices
      (surroundings (some [some (router "lamp" "0x00158d0001a2b3c4" "light"),
        some (router "lamp" "0x00158d0001a2b3c4" "light")]) true)
      ByteArray.empty World.initial).devices.map (fun d => d.Z2MDevice.IeeeAddress)
      = ["0x00158d0001a2b3c4", "0x00158d0001a2b3c4"] := by
  decide

/-! ## Callbacks -/

/-- C4: the on/off command callback of a device named `n` issues exactly one
publish, to topic `zigbee2mqtt/n/set/state`, with payload `ON` for true and
`OFF` for false, and leaves the accessory, its on/off value and its brightness,
as it was. -/
theorem on_command_publishes_once (env : Env) (d : Device) (value : Bool) (a : Accessory) :
    (onRemoteUpdate env d value a).1 = a ∧
    (onRemoteUpdate env d value a).2.filter Event.isPublish =
      [.publish ("zigbee2mqtt/" ++ d.Z2MDevice.FriendlyName ++ "/set/state")
        (if value then "ON" else "OFF")] := by
  have hz : z2m ++ "/" = "zigbee2mqtt/" := by decide
  have hs : "/" ++ "set/state" = "/set/state" := by decide
  have ht : z2m ++ "/" ++ d.Z2MDevice.FriendlyName ++ "/" ++ "set/state" =
      "zigbee2mqtt/" ++ d.Z2MDevice.FriendlyName ++ "/set/state" := by
    rw [hz, String.append_assoc ("zigbee2mqtt/" ++ d.Z2MDevice.FriendlyName), hs]
  refine ⟨rfl, ?_⟩
  unfold onRemoteUpdate
  simp only [ht]
  cases env.publishOk ("zigbee2mqtt/" ++ d.Z2MDevice.FriendlyName ++ "/set/state")
    (if value = true then "ON" else "OFF") <;>
    simp [List.filter, Event.isPublish]

/-- C5: a payload on the state topic of a light that does not decode leaves the
accessory as it was; one that decodes makes the on/off value true exactly when
the decoded state string is `ON` and makes the brightness the decoded
brightness; in neither case is anything published. -/
theorem state_message_sets_values (env : Env) (payload : ByteArray) (a : Accessory) :
    (env.unmarshalLightState payload = none → (stateReceive env payload a).1 = a) ∧
    (∀ state, env.unmarshalLightState payload = some state →
      ((stateReceive env payload a).1.Lightbulb.On = true ↔ state.State = "ON") ∧
      (stateReceive env payload a).1.Lightbulb.Brightness = state.Brightness ∧
      (stateReceive env payload a).1.Info = a.Info) ∧
    (∀ e ∈ (stateReceive env payload a).2, e.isPublish = false) := by
  unfold stateReceive
  cases env.unmarshalLightState payload with
  | none => simp [Event.isPublish]
  | some st => simp [Event.isPublish, Accessory.setOn, Accessory.setBrightness]

/-- C5 at a payload that does not decode and at one that reports a light that
is on at brightness 254. -/
theorem state_message_sets_values_witness :
    (surroundingsWithState none).unmarshalLightState ByteArray.empty = none ∧
    (stateReceive (surroundingsWithState none) ByteArray.empty
      (lightDevice (surroundings none true) (router "lamp" "0x01" "light")).Accessory).1
      = (lightDevice (surroundings none true) (router "lamp" "0x01" "light")).Accessory ∧
    (stateReceive
      (surroundingsWithState
        (some { State := "ON", Brightness := 254, ColorTemp := 370, LinkQuality := 80 }))
      ByteArray.empty
      (lightDevice (surroundings none true) (router "lamp" "0x01" "light")).Accessory).1.Lightbulb.Brightness
      = 254 :=
  ⟨rfl,
    (state_message_sets_values (surroundingsWithState none) ByteArray.empty _).1 rfl,
    ((state_message_sets_values
        (surroundingsWithState
          (some { State := "ON", Brightness := 254, ColorTemp := 370, LinkQuality := 80 }))
        ByteArray.empty
        (lightDevice (surroundings none true) (router "lamp" "0x01" "light")).Accessory).2.1
          _ rfl).2.1⟩

/-! ## At most one transport -/

theorem runningStep_quiet (live : List Nat) (e : Event) (h : e.isQuiet = true) :
    runningStep live e = live := by
  cases e <;> simp_all [Event.isQuiet, runningStep]

theorem allowedAt_quiet (live : List Nat) (e : Event) (h : e.isQuiet = true) :
    e.allowedAt live := by
  cases e <;> simp_all [Event.isQuiet, Event.allowedAt]

theorem sequenced_append (live : List Nat) (a b : List Event) :
    sequenced live (a ++ b) ↔ sequenced live a ∧ sequenced (a.foldl runningStep live) b := by
  induction a generalizing live with
  | nil => simp [sequenced]
  | cons e es ih =>
    show (e.allowedAt live ∧ (runningStep live e).length ≤ 1 ∧
        sequenced (runningStep live e) (es ++ b)) ↔
      (e.allowedAt live ∧ (runningStep live e).length ≤ 1 ∧
        sequenced (runningStep live e) es) ∧
        sequenced (es.foldl runningStep (runningStep live e)) b
    rw [ih]
    tauto

theorem sequenced_quiet (live : List Nat) (q : List Event) (hq : ∀ e ∈ q, e.isQuiet = true)
    (hl : live.length ≤ 1) : sequenced live q ∧ q.foldl runningStep live = live := by
  induction q with
  | nil => exact ⟨trivial, rfl⟩
  | cons e es ih =>
    have he := hq e (List.mem_cons_self _ _)
    have ih2 := ih (fun x hx => hq x (List.mem_cons_of_mem _ hx))
    simp only [sequenced, List.foldl_cons, runningStep_quiet live e he]
    exact ⟨⟨allowedAt_quiet live e he, hl, ih2.1⟩, ih2.2⟩

theorem sequenced_initial_segments (t : List Event) (live : List Nat) (hs : sequenced live t)
    (hl : live.length ≤ 1) (p : List Event) (hp : p <+: t) :
    (p.foldl runningStep live).length ≤ 1 ∧
      ∀ e, p ++ [e] <+: t → e.allowedAt (p.foldl runningStep live) := by
  induction t generalizing live p with
  | nil =>
    have : p = [] := List.prefix_nil.mp hp
    subst this
    refine ⟨hl, ?_⟩
    intro e he
    have := List.prefix_nil.mp he
    simp at this
  | cons x t ih =>
    obtain ⟨ha, hlen, hrest⟩ := hs
    cases p with
    | nil =>
      refine ⟨hl, ?_⟩
      intro e he
      simp only [List.nil_append] at he
      obtain ⟨r, hr⟩ := he
      simp only [List.singleton_append] at hr
      injection hr with h1 h2
      rw [h1]
      exact ha
    | cons y p =>
      obtain ⟨r, hr⟩ := hp
      simp only [List.cons_append] at hr
      injection hr with h1 h2
      subst h1
      have hp2 : p <+: t := ⟨r, h2⟩
      have := ih (runningStep live y) hrest hlen p hp2
      refine ⟨this.1, ?_⟩
      intro e he
      apply this.2 e
      obtain ⟨r2, hr2⟩ := he
      simp only [List.cons_append] at hr2
      injection hr2 with h3 h4
      exact ⟨r2, h4⟩

theorem unsubscribeLoop_quiet (env : Env) (ds : List Device) :
    ∀ e ∈ unsubscribeLoop env ds, e.isQuiet = true := by
  induction ds with
  | nil => intro e he; cases he
  | cons d rest ih =>
    intro e he
    unfold unsubscribeLoop at he
    rcases List.mem_append.mp he with he | he
    · split at he
      · rcases List.mem_append.mp he with he | he
        · simp only [List.mem_singleton] at he
          rw [he]; rfl
        · split at he
          · cases he
          · simp only [List.mem_singleton] at he
            rw [he]; rfl
      · cases he
    · exact ih e he

theorem log_or_subscribe_quiet (evs : List Event)
    (h : ∀ e ∈ evs, e.isLog = true ∨ ∃ t, e = .subscribe t) : ∀ e ∈ evs, e.isQuiet = true := by
  intro e he
  rcases h e he with h1 | ⟨t, h1⟩
  · cases e <;> simp_all [Event.isLog, Event.isQuiet]
  · rw [h1]; rfl

/-- The calls of one pass that ends without a panic keep the transports in
sequence, and leave running the transport held by the handle. -/
theorem pass_calls_sequenced (q1 q2 : List Event) (hq1 : ∀ e ∈ q1, e.isQuiet = true)
    (hq2 : ∀ e ∈ q2, e.isQuiet = true) (tr : Option Nat) (accs : List Accessory)
    (created : Bool) (n : Nat) :
    sequenced tr.toList
      (q1 ++ stopTransport tr ++ q2
        ++ [Event.newIPTransport accs (if created then some n else none)]
        ++ (if created then [] else [Event.log "NewIPTransport: %s"])
        ++ [Event.transportStart (if created then some n else none)]) ∧
    (q1 ++ stopTransport tr ++ q2
        ++ [Event.newIPTransport accs (if created then some n else none)]
        ++ (if created then [] else [Event.log "NewIPTransport: %s"])
        ++ [Event.transportStart (if created then some n else none)]).foldl runningStep tr.toList
      = (if created then some n else none).toList := by
  have hl : tr.toList.length ≤ 1 := by cases tr <;> simp
  have h1 := sequenced_quiet tr.toList q1 hq1 hl
  have hstop : sequenced tr.toList (stopTransport tr) ∧
      (stopTransport tr).foldl runningStep tr.toList = [] := by
    cases tr with
    | none => exact ⟨trivial, rfl⟩
    | some h => simp [stopTransport, sequenced, runningStep, Event.allowedAt]
  have h2 := sequenced_quiet [] q2 hq2 (by simp)
  simp only [sequenced_append, List.foldl_append, h1.2, hstop.2, h2.2]
  cases created <;>
    simp [sequenced, runningStep, Event.allowedAt, h1.1, hstop.1, h2.1]

/-- The invariant of the passes: the trace keeps the transports in sequence,
and the transport running after it is the one held by the handle. -/
theorem receiveDevices_sequenced (env : Env) (payload : ByteArray) (w : World)
    (hs : sequenced [] w.trace) (hr : running w.trace = w.transport.toList) :
    sequenced [] (receiveDevices env payload w).trace ∧
      running (receiveDevices env payload w).trace
        = (receiveDevices env payload w).transport.toList := by
  have hl : w.transport.toList.length ≤ 1 := by cases w.transport <;> simp
  unfold running at hr
  cases hdec : env.unmarshalDevices payload with
  | none =>
    rw [receiveDevices_undecoded env payload w hdec]
    simp only [running, sequenced_append, List.foldl_append, hr]
    have := sequenced_quiet w.transport.toList [.log "Unmarshal %v"]
      (by intro e he; simp only [List.mem_singleton] at he; rw [he]; rfl) hl
    exact ⟨⟨hs, this.1⟩, this.2⟩
  | some zs =>
    obtain ⟨more, hm, hq⟩ := eligibleLoop_events env zs [] []
    simp only [List.nil_append] at hm
    have hquiet := log_or_subscribe_quiet more hq
    cases hloop : eligibleLoop env zs [] [] with
    | mk evs r =>
      rw [hloop] at hm
      simp only [] at hm
      subst hm
      cases r with
      | error p =>
        rw [receiveDevices_panic env payload w zs evs p hdec hloop]
        simp only [running, sequenced_append, List.foldl_append, hr]
        have := sequenced_quiet w.transport.toList evs hquiet hl
        exact ⟨⟨hs, this.1⟩, this.2⟩
      | ok ds =>
        rw [receiveDevices_ok env payload w zs evs ds hdec hloop]
        have := pass_calls_sequenced evs (unsubscribeLoop env w.devices) hquiet
          (unsubscribeLoop_quiet env w.devices) w.transport (ds.map (fun d => d.Accessory))
          (env.newIPTransportOk (ds.map (fun d => d.Accessory))) w.nextTransport
        simp only [running, List.append_assoc] at this ⊢
        rw [sequenced_append, List.foldl_append, hr]
        exact ⟨⟨hs, this.1⟩, this.2⟩

theorem runPasses_sequenced (inputs : List (Env × ByteArray)) (w : World)
    (hs : sequenced [] w.trace) (hr : running w.trace = w.transport.toList) :
    sequenced [] (runPasses inputs w).trace := by
  induction inputs generalizing w with
  | nil => exact hs
  | cons ep rest ih =>
    obtain ⟨env, payload⟩ := ep
    unfold runPasses
    split
    · exact hs
    · have := receiveDevices_sequenced env payload w hs hr
      exact ih _ this.1 this.2

/-- C2: in every sequence of reconciliation passes run one after another from
the initial state, at most one accessory transport is running after every
initial segment of the trace; `hc.NewIPTransport` returns a transport only at a
point where no transport is running, every transport running before having had
its stop requested and awaited; and when a transport is started, it is the only
one running. -/
theorem at_most_one_transport (inputs : List (Env × ByteArray)) :
    (∀ p, p <+: (runPasses inputs World.initial).trace → (running p).length ≤ 1) ∧
    (∀ p accs h, p ++ [Event.newIPTransport accs (some h)] <+:
        (runPasses inputs World.initial).trace → running p = []) ∧
    (∀ p h, p ++ [Event.transportStart (some h)] <+:
        (runPasses inputs World.initial).trace → running p = [h]) := by
  have hs := runPasses_sequenced inputs World.initial trivial rfl
  refine ⟨?_, ?_, ?_⟩
  · intro p hp
    exact (sequenced_initial_segments _ [] hs (by simp) p hp).1
  · intro p accs h hp
    have hp1 : p <+: (runPasses inputs World.initial).trace :=
      List.IsPrefix.trans (List.prefix_append p _) hp
    exact (sequenced_initial_segments _ [] hs (by simp) p hp1).2 _ hp
  · intro p h hp
    have hp1 : p <+: (runPasses inputs World.initial).trace :=
      List.IsPrefix.trans (List.prefix_append p _) hp
    exact (sequenced_initial_segments _ [] hs (by simp) p hp1).2 _ hp

/-- C2 at two passes over an inventory of one light: when the second pass
creates its transport, the transport of the first pass has been stopped. -/
theorem at_most_one_transport_witness :
    ((runPasses twoPasses World.initial).trace.take 8 ++
        [Event.newIPTransport
          [(lightDevice (surroundings none true)
            (router "lamp" "0x00158d0001a2b3c4" "light")).Accessory] (some 1)]
      <+: (runPasses twoPasses World.initial).trace) ∧
    running ((runPasses twoPasses World.initial).trace.take 8) = [] :=
  ⟨by decide,
    (at_most_one_transport twoPasses).2.1 ((runPasses twoPasses World.initial).trace.take 8)
      [(lightDevice (surroundings none true)
        (router "lamp" "0x00158d0001a2b3c4" "light")).Accessory] 1 (by decide)⟩

end Hkz2m
